import Mathlib

/-!
Verification of the pi-jj checkpoint/restore and stack-reconciliation engine
(`src/runtime.ts`) against its natural-language specification.

The TypeScript runtime is shallowly embedded: pure helpers become Lean
functions, JavaScript string primitives (split, trim, truthiness, includes,
toUpperCase) are modelled over `String.data` so that everything evaluates by
kernel reduction, and the effectful command handlers become pure functions
from their inputs plus oracles for the external VCS / PR-host answers to the
list of facade calls they issue (`Effect`) and the data they produce.
External PR state is treated as fixed for the duration of one run (the
runtime re-queries it through the same facade).
-/

namespace PiJj

/-! ### JavaScript string primitives, modelled over character lists -/

/-- JS string truthiness: a string is truthy iff it is non-empty. -/
def jsTruthy (s : String) : Bool := !s.data.isEmpty

/-- Truthiness of a `string | undefined` value. -/
def optTruthy (o : Option String) : Bool :=
  match o with
  | some s => jsTruthy s
  | none => false

/-- Split a character list on a single separator character, keeping empty
segments, as `String.prototype.split` does. -/
def chSplit (sep : Char) : List Char → List (List Char)
  | [] => [[]]
  | c :: cs =>
    match chSplit sep cs with
    | [] => [[]]
    | h :: t => if c = sep then [] :: h :: t else (c :: h) :: t

/-- JS `s.split(sep)` for a one-character separator. -/
def jsSplit (sep : Char) (s : String) : List String :=
  (chSplit sep s.data).map String.mk

/-- JS `Array.prototype.join(sep)`. -/
def jsJoin (sep : String) : List String → String
  | [] => ""
  | h :: t => t.foldl (fun acc x => acc ++ sep ++ x) h

/-- JS `s.trimEnd()`. -/
def jsTrimEnd (s : String) : String :=
  ⟨(s.data.reverse.dropWhile Char.isWhitespace).reverse⟩

/-- JS `s.trim()`. -/
def jsTrim (s : String) : String :=
  ⟨((s.data.dropWhile Char.isWhitespace).reverse.dropWhile Char.isWhitespace).reverse⟩

/-- JS `s.toUpperCase()` (ASCII, which is all the runtime compares). -/
def jsToUpper (s : String) : String := ⟨s.data.map Char.toUpper⟩

/-- Whether the first list starts with the second. -/
def chStartsWith : List Char → List Char → Bool
  | _, [] => true
  | [], _ :: _ => false
  | c :: cs, p :: ps => c == p && chStartsWith cs ps

/-- Whether the second list occurs as a contiguous subsequence of the first. -/
def chContainsSeq : List Char → List Char → Bool
  | [], p => p.isEmpty
  | c :: cs, p => chStartsWith (c :: cs) p || chContainsSeq cs p

/-- JS `s.includes(pat)`. -/
def jsIncludes (s pat : String) : Bool := chContainsSeq s.data pat.data

/-! ### Data model (`src/types.ts`, `src/runtime.ts`) -/

/-- A captured per-turn snapshot (`Checkpoint` in `types.ts`).  Optional
fields are absent on checkpoints captured before operation tracking. -/
structure Checkpoint where
  entryId : String
  revision : String
  timestamp : Nat
  changeId : Option String := none
  changeIdShort : Option String := none
  operationId : Option String := none
  operationIdShort : Option String := none
  postOperationId : Option String := none
  postOperationIdShort : Option String := none
  deriving Repr, DecidableEq

/-- One mutable change in the stack (`StackNode` in `runtime.ts`). -/
structure StackNode where
  changeId : String
  changeIdShort : String
  revision : String
  revisionShort : String
  description : String
  immutable : Bool
  deriving Repr, DecidableEq

/-- Per-node result of one reconciliation pass (`PrRecord`). -/
structure PrRecord where
  changeId : String
  changeIdShort : String
  branch : String
  base : String
  number : Option Nat := none
  url : Option String := none
  state : Option String := none
  title : String
  deriving Repr, DecidableEq

/-- A PR as parsed from the PR-host JSON output (`GhPr`). -/
structure GhPr where
  number : Nat
  url : Option String := none
  state : Option String := none
  title : Option String := none
  baseRefName : Option String := none
  headRefName : Option String := none
  mergedAt : Option String := none
  deriving Repr, DecidableEq

/-- Parsed `/jj-pr-publish` options (`PrPublishOptions`). -/
structure PrPublishOptions where
  remote : String
  dryRun : Bool
  draft : Bool
  deriving Repr, DecidableEq

/-- Parsed `/jj-stack-close` options (`StackCloseOptions`). -/
structure StackCloseOptions where
  remote : String
  dryRun : Bool
  keepBookmarks : Bool
  noNewChange : Bool
  force : Bool
  deriving Repr, DecidableEq

/-- Exit code and standard error of one external process invocation. -/
structure ExecRes where
  code : Int
  stderr : String
  deriving Repr, DecidableEq

/-! ### Base Rule (`computeExpectedBase`, runtime.ts lines 2200 to 2215) -/

/-- Whether a record state counts as already landed (`MERGED` or `CLOSED`). -/
def isLandedState (state : Option String) : Bool :=
  state == some "MERGED" || state == some "CLOSED"

/-- The backward scan of `computeExpectedBase`: starting at index `i` and
walking down to 0, return the branch of the first present record whose state
is neither `MERGED` nor `CLOSED`; missing records are skipped. -/
def scanForBase (records : List PrRecord) : Nat → Option String
  | 0 =>
    match records[0]? with
    | some r => if isLandedState r.state then none else some r.branch
    | none => none
  | i + 1 =>
    match records[i + 1]? with
    | some r => if isLandedState r.state then scanForBase records i else some r.branch
    | none => scanForBase records i

/-- `computeExpectedBase(stack, index, records, defaultBase)`: index 0 gets
the default base; a later index gets the result of the backward scan from
`index - 1`, or the default base when the scan finds nothing.  The `stack`
argument is unused by the source body as well. -/
def computeExpectedBase (stack : List StackNode) (index : Nat) (records : List PrRecord)
    (defaultBase : String) : String :=
  match stack, index with
  | _, 0 => defaultBase
  | _, i + 1 =>
    match scanForBase records i with
    | some b => b
    | none => defaultBase

/-- Modelled from the spec wording of the Base Rule: the records visited when
scanning backward through indices `index - 1, ..., 0`, skipping indices with
no record produced. -/
def backwardScanRecords (records : List PrRecord) (index : Nat) : List PrRecord :=
  (List.range index).reverse.filterMap (fun j => records[j]?)

/-- Modelled from the spec wording of the Base Rule: the first record found
scanning backward whose state is neither `MERGED` nor `CLOSED`. -/
def firstLiveBelow (records : List PrRecord) (index : Nat) : Option PrRecord :=
  (backwardScanRecords records index).find? (fun r => !isLandedState r.state)

/-! ### Branch, title and body derivation -/

/-- `branchForChange`: deterministic bookmark name for a change. -/
def branchForChange (node : StackNode) : String :=
  "push-" ++ node.changeIdShort

/-- `titleForChange`: trimmed first line, or a change-id placeholder. -/
def titleForChange (node : StackNode) : String :=
  let title := jsTrim node.description
  if jsTruthy title then title else "Change " ++ node.changeIdShort

/-- `getExistingPr` after JSON parsing: the first PR listed for the branch,
with a `CLOSED` PR that has a merge timestamp normalised to `MERGED`.
The raw per-branch answer of the PR host is the oracle `prq`. -/
def getExistingPr (prq : String → Option GhPr) (headBranch : String) : Option GhPr :=
  match prq headBranch with
  | none => none
  | some pr =>
    if pr.state == some "CLOSED" && optTruthy pr.mergedAt then
      some { pr with state := some "MERGED" }
    else some pr

/-! ### Stack resolution (`getStackNodes`, runtime.ts lines 509 to 548) -/

/-- Parse the tab-separated fields of one log line into a stack node:
six fixed fields, the rest rejoined as the description.  Returns `none`
for malformed lines and for empty commits with a blank description. -/
def parseFields (parts : List String) : Option StackNode :=
  match parts with
  | changeId :: changeIdShort :: revision :: revisionShort :: immutableFlag :: emptyFlag :: descParts =>
    let description := jsJoin "\t" descParts
    if !jsTruthy changeId || !jsTruthy changeIdShort || !jsTruthy revision
        || !jsTruthy revisionShort || !jsTruthy immutableFlag || !jsTruthy emptyFlag then
      none
    else
      let isEmptyCommit := emptyFlag == "1"
      let hasDescription := jsTruthy (jsTrim description)
      if isEmptyCommit && !hasDescription then none
      else
        some {
          changeId := changeId
          changeIdShort := changeIdShort
          revision := revision
          revisionShort := revisionShort
          immutable := immutableFlag == "1"
          description := if jsTruthy description then description else "(no description)" }
  | _ => none

/-- Parse one line of the stack query output. -/
def parseStackLine (line : String) : Option StackNode :=
  let trimmed := jsTrimEnd line
  if !jsTruthy trimmed then none
  else parseFields (jsSplit '\t' trimmed)

/-- The nodes resolved from the query output lines; malformed lines are
skipped rather than fatal. -/
def stackNodesOfLines (lines : List String) : List StackNode :=
  lines.filterMap parseStackLine

/-- `getStackNodes` applied to the raw stdout of the log query. -/
def getStackNodesFromOutput (stdout : String) : List StackNode :=
  stackNodesOfLines (jsSplit '\n' stdout)

/-- Modelled from the spec wording: a line is well formed when it has at
least six tab-separated fields, the six fixed fields are non-blank, and the
node is not both flagged empty and blank-described. -/
def lineWellFormed (line : String) : Prop :=
  let parts := jsSplit '\t' (jsTrimEnd line)
  6 ≤ parts.length ∧ (∀ f ∈ parts.take 6, jsTruthy f = true) ∧
    ¬(parts[5]? = some "1" ∧ jsTruthy (jsTrim (jsJoin "\t" (parts.drop 6))) = false)

instance (line : String) : Decidable (lineWellFormed line) := by
  unfold lineWellFormed; exact inferInstance

/-! ### Checkpoint store (`pruneCheckpoints`, `handleTurnEnd`, rebuild) -/

/-- The ascending-timestamp comparison used by the pruning sort. -/
def tsLe (a b : Checkpoint) : Bool := a.timestamp ≤ b.timestamp

/-- `pruneCheckpoints`: when the store holds more than `maxCheckpoints`
entries, drop the oldest-by-timestamp entries (stable ascending sort,
removing a prefix) until at the limit.  The store is the value list of a
map keyed by `entryId`, so deletion removes entries by `entryId`. -/
def pruneCheckpoints (maxCheckpoints : Nat) (cps : List Checkpoint) : List Checkpoint :=
  if cps.length ≤ maxCheckpoints then cps
  else
    let ordered := cps.mergeSort tsLe
    let toRemove := ordered.take (ordered.length - maxCheckpoints)
    cps.filter (fun c => !toRemove.any (fun r => r.entryId == c.entryId))

/-- `Map.set` semantics of the checkpoint store: replace in place when the
entry id is present, otherwise append in insertion order. -/
def setCheckpoint (cps : List Checkpoint) (cp : Checkpoint) : List Checkpoint :=
  if cps.any (fun c => c.entryId == cp.entryId) then
    cps.map (fun c => if c.entryId == cp.entryId then cp else c)
  else cps ++ [cp]

/-- The store mutation done by `handleTurnEnd`: store the committed
checkpoint under its entry id, then prune. -/
def commitCheckpoint (maxCheckpoints : Nat) (cps : List Checkpoint) (cp : Checkpoint) :
    List Checkpoint :=
  pruneCheckpoints maxCheckpoints (setCheckpoint cps cp)

/-- One step of `rebuildCheckpointsFromSession`: last write wins by
timestamp for an already-present entry id. -/
def rebuildInsert (cps : List Checkpoint) (cp : Checkpoint) : List Checkpoint :=
  match cps.find? (fun c => c.entryId == cp.entryId) with
  | some existing => if existing.timestamp < cp.timestamp then setCheckpoint cps cp else cps
  | none => setCheckpoint cps cp

/-- `rebuildCheckpointsFromSession` over the already-filtered durable-log
checkpoint payloads (kind, required-field and session filtering applied):
fold the entries into an empty store, then prune. -/
def rebuildCheckpoints (maxCheckpoints : Nat) (datas : List Checkpoint) : List Checkpoint :=
  pruneCheckpoints maxCheckpoints (datas.foldl rebuildInsert [])

/-- `Map.get` on the store. -/
def lookupCheckpoint (cps : List Checkpoint) (id : String) : Option Checkpoint :=
  cps.find? (fun c => c.entryId == id)

/-! ### Restore resolution (runtime.ts lines 466 to 503) -/

/-- The ancestor walk of `resolveCheckpointRevision`: first checkpoint with
a truthy revision along the given id sequence. -/
def walkRevFirst (store : List Checkpoint) : List String → Option String
  | [] => none
  | id :: rest =>
    match lookupCheckpoint store id with
    | some cp => if jsTruthy cp.revision then some cp.revision else walkRevFirst store rest
    | none => walkRevFirst store rest

/-- The ancestor walk of `resolveCheckpointOperationId`: the first
checkpoint found along the given id sequence, whatever its fields. -/
def walkOpFirst (store : List Checkpoint) : List String → Option Checkpoint
  | [] => none
  | id :: rest =>
    match lookupCheckpoint store id with
    | some cp => some cp
    | none => walkOpFirst store rest

/-- `resolveCheckpointRevision`: direct lookup by target id, else the
ancestor walk from most recent to oldest; no further fallback.  `path` is
the root-to-target ancestor chain of entry ids. -/
def resolveCheckpointRevision (store : List Checkpoint) (path : List String)
    (targetId : String) : Option String :=
  let direct := (lookupCheckpoint store targetId).map Checkpoint.revision
  if optTruthy direct then direct
  else walkRevFirst store path.reverse

/-- `resolveCheckpointOperationId`: direct lookup by target id (pre-turn
operation id); else the ancestor walk, returning the first found
checkpoint, post-turn id preferred over pre-turn id; else the operation id
captured at session-resume time. -/
def resolveCheckpointOperationId (store : List Checkpoint) (resume : Option String)
    (path : List String) (targetId : String) : Option String :=
  let direct := (lookupCheckpoint store targetId).bind Checkpoint.operationId
  if optTruthy direct then direct
  else
    match walkOpFirst store path.reverse with
    | some cp => cp.postOperationId.orElse (fun _ => cp.operationId)
    | none => resume

/-- A resolved restore instruction (`resolveRestoreTarget` result). -/
inductive RestoreInstruction where
  | file (revision : String)
  | operation (operationId : String)
  deriving Repr, DecidableEq

/-- `resolveRestoreTarget`: dispatch on the configured restore mode; the
operation mode uses only the operation-id resolution, the file mode only
the revision resolution. -/
def resolveRestoreTarget (restoreMode : String) (store : List Checkpoint)
    (resume : Option String) (path : List String) (targetId : String) :
    Option RestoreInstruction :=
  if restoreMode == "operation" then
    match resolveCheckpointOperationId store resume path targetId with
    | some opId => if jsTruthy opId then some (.operation opId) else none
    | none => none
  else
    match resolveCheckpointRevision store path targetId with
    | some rev => if jsTruthy rev then some (.file rev) else none
    | none => none

/-! ### Facade calls issued by the engine -/

/-- One externally visible facade call. -/
inductive Effect where
  | bookmarkSet (branch changeId : String)
  | gitPush (branch remote : String)
  | prListQuery (branch : String)
  | prCreate (branch base title body : String) (draft : Bool)
  | prEditFull (number : Nat) (base title body : String)
  | prEditBase (number : Nat) (base : String)
  | appendPrState (action remote : String) (records : List PrRecord)
  | opRestore (operationId : String)
  | gitFetchAllRemotes
  | restoreFromRev (revision : String)
  | bookmarkDelete (branch : String)
  | pushDeleted (remote : String) (branches : List String)
  | jjNew (base : String)
  deriving Repr, DecidableEq

/-- `restoreToOperation`: operation restore followed by a fetch of all
remotes. -/
def restoreToOperationEffects (operationId : String) : List Effect :=
  [Effect.opRestore operationId, Effect.gitFetchAllRemotes]

/-- `restoreFilesFromRevision`. -/
def restoreFilesFromRevisionEffects (revision : String) : List Effect :=
  [Effect.restoreFromRev revision]

/-- The facade calls of one successful restore, by instruction mode. -/
def restoreEffects : RestoreInstruction → List Effect
  | .operation opId => restoreToOperationEffects opId
  | .file rev => restoreFilesFromRevisionEffects rev

/-- The facade calls of a successful undo: the fork and tree handlers run
the recorded undo point through the same operation-mode restore. -/
def undoRestoreEffects (undoOpId : String) : List Effect :=
  restoreEffects (.operation undoOpId)

/-- Whether a facade call failed (threw). -/
def exceptFailed {ε α : Type} : Except ε α → Bool
  | .error _ => true
  | .ok _ => false

/-- The fallible VCS call performed for a restore instruction, with one
oracle per command. -/
def runRestoreStep (target : RestoreInstruction)
    (opRestoreRes : String → Except String Unit)
    (fileRestoreRes : String → Except String Unit) : Except String Unit :=
  match target with
  | .operation opId => opRestoreRes opId
  | .file rev => fileRestoreRes rev

/-- `restoreWithUndo` state semantics: read the current operation id, run
the restore, and only on success record the pre-restore id as the undo
point and return success; any thrown facade error is caught and reported as
failure, leaving the undo point untouched. -/
def restoreWithUndoState (curOp : Except String String) (target : RestoreInstruction)
    (opRestoreRes fileRestoreRes : String → Except String Unit)
    (lastRestoreOperationId : Option String) : Bool × Option String :=
  match curOp with
  | .error _ => (false, lastRestoreOperationId)
  | .ok beforeOp =>
    match runRestoreStep target opRestoreRes fileRestoreRes with
    | .error _ => (false, lastRestoreOperationId)
    | .ok _ => (true, some beforeOp)

/-- Outcome of a history navigation attempt. -/
inductive NavOutcome where
  | proceed
  | cancel
  deriving Repr, DecidableEq

/-- `handleSessionBeforeTree` after the user chose to restore: a failed
restore cancels the navigation. -/
def treeRestoreOutcome (success : Bool) : NavOutcome :=
  if success then .proceed else .cancel

/-! ### Sync pass (`refreshPrSnapshot`, runtime.ts lines 1938 to 2028) -/

/-- The retarget condition of the sync loop: a base edit is attempted when
retargeting is on, the PR is open with a truthy number, and its actual base
differs from the truthy expected base.  Returns the PR number and the new
base of the attempted edit. -/
def refreshRetargetAttempt (retargetBases : Bool) (defaultBase : String)
    (stack : List StackNode) (i : Nat) (records : List PrRecord) (pr : Option GhPr) :
    Option (Nat × String) :=
  match pr with
  | some p =>
    if retargetBases && p.state == some "OPEN" && p.number != 0 then
      let expectedBase := computeExpectedBase stack i records defaultBase
      if jsTruthy expectedBase && p.baseRefName != some expectedBase then
        some (p.number, expectedBase)
      else none
    else none
  | none => none

/-- The per-node loop of `refreshPrSnapshot`.  `i` is the index of the node
at the head of `rest` within `stack`, `records` the records produced for
the earlier nodes.  `retargetOk` tells whether a given base-edit call
succeeds (a failed edit is caught and the current base kept).  Returns the
records produced for `rest`, the retargets performed as
`(number, oldBase, newBase)` triples, and the facade calls issued. -/
def refreshNodes (retargetBases : Bool) (defaultBase : String) (stack : List StackNode)
    (prq : String → Option GhPr) (retargetOk : Nat → Bool) :
    Nat → List StackNode → List PrRecord →
    List PrRecord × List (Nat × String × String) × List Effect
  | _, [], _ => ([], [], [])
  | i, node :: rest, records =>
    let branch := branchForChange node
    let pr := getExistingPr prq branch
    let title :=
      match pr.bind GhPr.title with
      | some t => if jsTruthy (jsTrim t) then jsTrim t else titleForChange node
      | none => titleForChange node
    let base0 :=
      match pr.bind GhPr.baseRefName with
      | some b => if jsTruthy b then b else "-"
      | none => "-"
    let retargetAttempt := refreshRetargetAttempt retargetBases defaultBase stack i records pr
    let editEffects :=
      match retargetAttempt with
      | some (n, eb) => [Effect.prEditBase n eb]
      | none => []
    let stepOut :=
      match retargetAttempt with
      | some (n, eb) =>
        if retargetOk n then (eb, [(n, (pr.bind GhPr.baseRefName).getD "", eb)])
        else (base0, [])
      | none => (base0, [])
    let record : PrRecord := {
      changeId := node.changeId
      changeIdShort := node.changeIdShort
      branch := branch
      base := stepOut.1
      number := pr.map GhPr.number
      url := pr.bind GhPr.url
      state := some (match pr.bind GhPr.state with
        | some s => if jsTruthy s then s else "MISSING"
        | none => "MISSING")
      title := title }
    let tail := refreshNodes retargetBases defaultBase stack prq retargetOk (i + 1) rest
      (records ++ [record])
    (record :: tail.1, stepOut.2 ++ tail.2.1,
      (Effect.prListQuery branch :: editEffects) ++ tail.2.2)

/-- Result of one `refreshPrSnapshot` run. -/
structure RefreshOut where
  records : List PrRecord
  retargeted : List (Nat × String × String)
  effects : List Effect
  deriving Repr, DecidableEq

/-- `refreshPrSnapshot`: loop over the stack, then persist one snapshot
with action `sync` when requested. -/
def refreshPrSnapshotRun (remote : String) (stack : List StackNode)
    (retargetBases persist : Bool) (defaultBase : String)
    (prq : String → Option GhPr) (retargetOk : Nat → Bool) : RefreshOut :=
  let out := refreshNodes retargetBases defaultBase stack prq retargetOk 0 stack []
  { records := out.1
    retargeted := out.2.1
    effects := out.2.2 ++ (if persist then [Effect.appendPrState "sync" remote out.1] else []) }

/-! ### Publish (`commandJjPrPublish`, runtime.ts lines 1740 to 1936) -/

/-- `bodyForChange`. -/
def bodyForChange (node : StackNode) (base : String) : String :=
  jsJoin "\n"
    ["Stacked PR for jj change " ++ node.changeId ++ ".", "",
     "- change: " ++ node.changeId,
     "- revision: " ++ node.revision,
     "- base: " ++ base]

/-- The per-node loop of the publish command.  On the dry-run path each node
only queries existing PR state; otherwise the branch bookmark is set and
pushed, then a PR is created when none exists, edited when one is open, and
left untouched when closed or merged.  `urlFromCreateOut` models the URL
parsed out of the create-command stdout. -/
def publishNodes (dryRun draft : Bool) (defaultBase remote : String) (stack : List StackNode)
    (prq : String → Option GhPr) (urlFromCreateOut : String → Option String) :
    Nat → List StackNode → List PrRecord → List PrRecord × List Effect
  | _, [], _ => ([], [])
  | i, node :: rest, records =>
    let branch := branchForChange node
    let baseBranch := computeExpectedBase stack i records defaultBase
    let title := titleForChange node
    if dryRun then
      let existing := getExistingPr prq branch
      let record : PrRecord := {
        changeId := node.changeId
        changeIdShort := node.changeIdShort
        branch := branch
        base := baseBranch
        title := title
        number := existing.map GhPr.number
        url := existing.bind GhPr.url
        state := some (match existing.bind GhPr.state with
          | some s => if jsTruthy s then s else "MISSING"
          | none => "MISSING") }
      let tail := publishNodes dryRun draft defaultBase remote stack prq urlFromCreateOut
        (i + 1) rest (records ++ [record])
      (record :: tail.1, Effect.prListQuery branch :: tail.2)
    else
      let body := bodyForChange node baseBranch
      let existing := getExistingPr prq branch
      let stepOut : List Effect × Option Nat × Option String × Option String :=
        match existing with
        | none =>
          let createdInfo := getExistingPr prq branch
          let url :=
            match createdInfo.bind GhPr.url with
            | some u => if jsTruthy u then some u else urlFromCreateOut branch
            | none => urlFromCreateOut branch
          ([Effect.prCreate branch baseBranch title body draft, Effect.prListQuery branch],
            createdInfo.map GhPr.number, url, createdInfo.bind GhPr.state)
        | some p =>
          if p.state == some "OPEN" then
            ([Effect.prEditFull p.number baseBranch title body], some p.number, p.url, p.state)
          else
            ([], some p.number, p.url, p.state)
      let record : PrRecord := {
        changeId := node.changeId
        changeIdShort := node.changeIdShort
        branch := branch
        base := baseBranch
        number := stepOut.2.1
        url := stepOut.2.2.1
        state := stepOut.2.2.2
        title := title }
      let tail := publishNodes dryRun draft defaultBase remote stack prq urlFromCreateOut
        (i + 1) rest (records ++ [record])
      (record :: tail.1,
        (Effect.bookmarkSet branch node.changeId :: Effect.gitPush branch remote ::
          Effect.prListQuery branch :: stepOut.1) ++ tail.2)

/-- Result of one publish run. -/
structure PublishOut where
  records : List PrRecord
  effects : List Effect
  deriving Repr, DecidableEq

/-- `commandJjPrPublish` after remote/base/auth resolution succeeded: when
`autoSyncOnPublish` is set, a sync pass (no retargeting, persisted) runs
first, dry-run or not; then the per-node loop; then, only when not dry-run,
one snapshot with action `publish` is persisted and, when
`autoSyncOnPublish` is set, a second sync pass with retargeting runs. -/
def publishRun (stack : List StackNode) (dryRun draft autoSync : Bool)
    (defaultBase remote : String) (prq : String → Option GhPr)
    (retargetOk : Nat → Bool) (urlFromCreateOut : String → Option String) : PublishOut :=
  let pre :=
    if autoSync then
      (refreshPrSnapshotRun remote stack false true defaultBase prq retargetOk).effects
    else []
  let loop := publishNodes dryRun draft defaultBase remote stack prq urlFromCreateOut 0 stack []
  let persistEffects :=
    if !dryRun then [Effect.appendPrState "publish" remote loop.1] else []
  let post :=
    if autoSync && !dryRun then
      (refreshPrSnapshotRun remote stack true true defaultBase prq retargetOk).effects
    else []
  { records := loop.1, effects := pre ++ loop.2 ++ persistEffects ++ post }

/-! ### Stack close (`commandJjStackClose`, runtime.ts lines 2059 to 2198) -/

/-- First-occurrence deduplication, as the spread of a JS `Set` yields. -/
def dedupAcc : List String → List String → List String
  | [], _ => []
  | x :: xs, seen => if x ∈ seen then dedupAcc xs seen else x :: dedupAcc xs (x :: seen)

/-- The bookmark deletion loop: every branch gets a delete call; a failure
whose stderr mentions a missing bookmark is tolerated, other failures are
collected as error lines.  Returns facade calls, deleted branches, errors. -/
def deleteBookmarks (delRes : String → ExecRes) :
    List String → List Effect × List String × List String
  | [] => ([], [], [])
  | b :: rest =>
    let r := delRes b
    let stderr := jsTrim r.stderr
    let tail := deleteBookmarks delRes rest
    if r.code == 0 then
      (Effect.bookmarkDelete b :: tail.1, b :: tail.2.1, tail.2.2)
    else if jsIncludes stderr "No such bookmark" then
      (Effect.bookmarkDelete b :: tail.1, tail.2.1, tail.2.2)
    else
      (Effect.bookmarkDelete b :: tail.1, tail.2.1,
        ("delete " ++ b ++ ": " ++ (if jsTruthy stderr then stderr else "failed")) :: tail.2.2)

/-- Outcome of a stack-close invocation. -/
inductive CloseOutcome where
  | blockedOpen (openRecords : List PrRecord)
  | dryRunReport (branches : List String)
  | cancelled
  | completed (deleted : List String) (errors : List String) (newChangeBase : Option String)
  deriving Repr, DecidableEq

/-- `commandJjStackClose` after the jj-repo and non-empty-stack
preconditions and a successful auth check and PR-state refresh: refresh
(no retargeting, persisted), refuse when open PRs remain without `--force`,
honour dry-run and the confirmation prompt, then delete bookmarks, push the
deletions in one batched call, and start a fresh change from the
remote-tracking default branch, falling back to the local one. -/
def stackCloseRun (stack : List StackNode) (opts : StackCloseOptions)
    (remote defaultBase : String) (prq : String → Option GhPr) (retargetOk : Nat → Bool)
    (delRes : String → ExecRes) (pushRes : ExecRes) (newPreferredRes newFallbackRes : ExecRes)
    (confirmed : Bool) : List Effect × CloseOutcome :=
  let branches := dedupAcc (stack.map branchForChange) []
  let refreshed := refreshPrSnapshotRun remote stack false true defaultBase prq retargetOk
  let openRecords := refreshed.records.filter
    (fun r => jsToUpper (r.state.getD "") == "OPEN")
  if openRecords.length > 0 && !opts.force then
    (refreshed.effects, .blockedOpen openRecords)
  else if opts.dryRun then
    (refreshed.effects, .dryRunReport branches)
  else if !confirmed then
    (refreshed.effects, .cancelled)
  else
    let del :=
      if !opts.keepBookmarks then deleteBookmarks delRes branches else ([], [], [])
    let pushStep :=
      if !opts.keepBookmarks && del.2.1.length > 0 then
        ([Effect.pushDeleted remote del.2.1],
          if pushRes.code != 0 then
            ["push bookmark deletions: " ++
              (if jsTruthy (jsTrim pushRes.stderr) then jsTrim pushRes.stderr else "failed")]
          else [])
      else ([], [])
    let newStep :=
      if !opts.noNewChange then
        let preferredBase := defaultBase ++ "@origin"
        if newPreferredRes.code == 0 then
          ([Effect.jjNew preferredBase], some preferredBase, ([] : List String))
        else if newFallbackRes.code == 0 then
          ([Effect.jjNew preferredBase, Effect.jjNew defaultBase], some defaultBase, [])
        else
          ([Effect.jjNew preferredBase, Effect.jjNew defaultBase], none,
            ["create new change: " ++
              (if jsTruthy (jsTrim newFallbackRes.stderr) then jsTrim newFallbackRes.stderr
               else "failed")])
      else ([], none, [])
    (refreshed.effects ++ del.1 ++ pushStep.1 ++ newStep.1,
      .completed del.2.1 (del.2.2 ++ pushStep.2 ++ newStep.2.2) newStep.2.1)

/-! ### Effect classification helpers -/

/-- Whether an effect is a bookmark-set call. -/
def isBookmarkSet : Effect → Bool
  | .bookmarkSet _ _ => true
  | _ => false

/-- Whether an effect is a push of a bookmark. -/
def isGitPush : Effect → Bool
  | .gitPush _ _ => true
  | _ => false

/-- Whether an effect is a PR-create call. -/
def isPrCreate : Effect → Bool
  | .prCreate _ _ _ _ _ => true
  | _ => false

/-- Whether an effect is a PR-edit call of either form. -/
def isPrEdit : Effect → Bool
  | .prEditFull _ _ _ _ => true
  | .prEditBase _ _ => true
  | _ => false

/-- Whether an effect persists a PR-state snapshot to the durable log. -/
def isAppendPrState : Effect → Bool
  | .appendPrState _ _ _ => true
  | _ => false

/-- The action field of a persisted PR-state snapshot, when the effect is
one. -/
def appendedAction : Effect → Option String
  | .appendPrState action _ _ => some action
  | _ => none

/-- Whether an effect is a bookmark deletion. -/
def isBookmarkDelete : Effect → Bool
  | .bookmarkDelete _ => true
  | _ => false

/-- Whether an effect pushes bookmark deletions. -/
def isPushDeleted : Effect → Bool
  | .pushDeleted _ _ => true
  | _ => false

/-- Whether an effect queries the PR host. -/
def isPrListQuery : Effect → Bool
  | .prListQuery _ => true
  | _ => false

/-! ### Concrete scenario data used by the claim instances -/

/-- Stack node A of the spec scenario. -/
def nodeA : StackNode :=
  { changeId := "aaaa", changeIdShort := "A", revision := "r1", revisionShort := "r1",
    description := "feat a", immutable := false }

/-- Stack node B of the spec scenario. -/
def nodeB : StackNode :=
  { changeId := "bbbb", changeIdShort := "B", revision := "r2", revisionShort := "r2",
    description := "feat b", immutable := false }

/-- Stack node C of the spec scenario. -/
def nodeC : StackNode :=
  { changeId := "cccc", changeIdShort := "C", revision := "r3", revisionShort := "r3",
    description := "feat c", immutable := false }

/-- The scenario stack `[A, B, C]`. -/
def scenarioStack : List StackNode := [nodeA, nodeB, nodeC]

/-- The PR-host answers of the spec scenario: A is `MERGED`, B is `OPEN`
with base `push-A`, C is `OPEN` with base `push-B`. -/
def scenarioPrq : String → Option GhPr := fun branch =>
  if branch = "push-A" then
    some { number := 1, state := some "MERGED", baseRefName := some "main",
           url := some "u1", title := some "feat a" }
  else if branch = "push-B" then
    some { number := 2, state := some "OPEN", baseRefName := some "push-A",
           url := some "u2", title := some "feat b" }
  else if branch = "push-C" then
    some { number := 3, state := some "OPEN", baseRefName := some "push-B",
           url := some "u3", title := some "feat c" }
  else none

/-- The record the scenario sync pass produces for A. -/
def scenarioRecordA : PrRecord :=
  { changeId := "aaaa", changeIdShort := "A", branch := "push-A", base := "main",
    number := some 1, url := some "u1", state := some "MERGED", title := "feat a" }

/-- The record the scenario sync pass produces for B. -/
def scenarioRecordB : PrRecord :=
  { changeId := "bbbb", changeIdShort := "B", branch := "push-B", base := "main",
    number := some 2, url := some "u2", state := some "OPEN", title := "feat b" }

/-! ## Theorems -/

/-- The backward scan of the source agrees with the spec-worded first-live
search over indices `i, i-1, ..., 0`. -/
theorem scanForBase_eq_firstLive (records : List PrRecord) (i : Nat) :
    scanForBase records i = (firstLiveBelow records (i + 1)).map PrRecord.branch := by
  induction i with
  | zero =>
    simp only [firstLiveBelow, backwardScanRecords, List.range_succ, List.range_zero,
      List.nil_append, List.reverse_cons, List.reverse_nil, List.nil_append,
      List.filterMap_cons, List.filterMap_nil, scanForBase]
    cases h : records[0]? with
    | none => simp
    | some r =>
      cases hl : isLandedState r.state <;> simp [List.find?, hl]
  | succ i ih =>
    have hr : (List.range (i + 2)).reverse = (i + 1) :: (List.range (i + 1)).reverse := by
      rw [List.range_succ, List.reverse_append]; simp
    simp only [firstLiveBelow, backwardScanRecords] at ih ⊢
    rw [hr, List.filterMap_cons]
    cases h : records[i + 1]? with
    | none => simpa [scanForBase, h] using ih
    | some r =>
      cases hl : isLandedState r.state with
      | false => simp [scanForBase, h, hl, List.find?_cons]
      | true =>
        simp only [scanForBase, h, hl, List.find?_cons]
        simpa [hl] using ih

/-- Claim C1: the Base Rule.  Index 0 always resolves to the default
branch; an index `i > 0` resolves to the branch of the first
already-produced record found scanning indices `i-1` down to 0 whose state
is neither `MERGED` nor `CLOSED`, and to the default branch when no such
record exists.  In the spec scenario (A merged, B and C open), B resolves
to the default branch and C to `push-B`, and the Sync pass with
retargeting edits exactly PR 2 to the default branch. -/
theorem computeExpectedBase_baseRule :
    (∀ stack records d, computeExpectedBase stack 0 records d = d) ∧
    (∀ stack records d i, 0 < i →
      computeExpectedBase stack i records d =
        ((firstLiveBelow records i).map PrRecord.branch).getD d) ∧
    computeExpectedBase scenarioStack 1 [scenarioRecordA] "main" = "main" ∧
    computeExpectedBase scenarioStack 2 [scenarioRecordA, scenarioRecordB] "main" = "push-B" ∧
    (refreshPrSnapshotRun "origin" scenarioStack true true "main" scenarioPrq
        (fun _ => true)).effects.filter isPrEdit = [Effect.prEditBase 2 "main"] ∧
    (refreshPrSnapshotRun "origin" scenarioStack true true "main" scenarioPrq
        (fun _ => true)).records.map PrRecord.base = ["main", "main", "push-B"] := by
  refine ⟨fun stack records d => by cases stack <;> rfl,
    fun stack records d i hi => ?_, by decide, by decide, by decide, by decide⟩
  obtain ⟨j, rfl⟩ := Nat.exists_eq_add_of_lt hi
  cases stack <;>
    simp [computeExpectedBase, scanForBase_eq_firstLive, Nat.zero_add] <;>
    cases firstLiveBelow records (j + 1) <;> simp

/-- Witness for C1: the quantified clause applied at index 2 of the
scenario record list. -/
theorem computeExpectedBase_baseRule_witness :
    (0 < 2) ∧
    computeExpectedBase scenarioStack 2 [scenarioRecordA, scenarioRecordB] "main" =
      ((firstLiveBelow [scenarioRecordA, scenarioRecordB] 2).map PrRecord.branch).getD "main" :=
  ⟨by decide,
    computeExpectedBase_baseRule.2.1 scenarioStack [scenarioRecordA, scenarioRecordB] "main" 2
      (by decide)⟩

/-- Each branch the backward scan returns comes from a record at an index
no greater than the scan start. -/
theorem scanForBase_sound (records : List PrRecord) (i : Nat) (b : String)
    (h : scanForBase records i = some b) :
    ∃ j, j ≤ i ∧ ∃ r, records[j]? = some r ∧ b = r.branch := by
  induction i with
  | zero =>
    cases hr : records[0]? with
    | none => simp [scanForBase, hr] at h
    | some r =>
      cases hl : isLandedState r.state with
      | true => simp [scanForBase, hr, hl] at h
      | false =>
        simp [scanForBase, hr, hl] at h
        exact ⟨0, Nat.le_refl 0, r, hr, h.symm⟩
  | succ i ih =>
    cases hr : records[i + 1]? with
    | none =>
      simp only [scanForBase, hr] at h
      obtain ⟨j, hj, r, hrec, hb⟩ := ih h
      exact ⟨j, Nat.le_succ_of_le hj, r, hrec, hb⟩
    | some r =>
      cases hl : isLandedState r.state with
      | true =>
        simp only [scanForBase, hr, hl, if_true] at h
        obtain ⟨j, hj, r2, hrec, hb⟩ := ih h
        exact ⟨j, Nat.le_succ_of_le hj, r2, hrec, hb⟩
      | false =>
        simp [scanForBase, hr, hl] at h
        exact ⟨i + 1, Nat.le_refl _, r, hr, h.symm⟩

/-- Claim C10: the expected base at index `i` is either the default branch
or the branch of a record at a strictly smaller index, never the branch of
the node at index `i` itself nor of any later record. -/
theorem computeExpectedBase_noForwardReference :
    ∀ (stack : List StackNode) (index : Nat) (records : List PrRecord) (d : String),
      computeExpectedBase stack index records d = d ∨
        ∃ j, j < index ∧ ∃ r, records[j]? = some r ∧
          computeExpectedBase stack index records d = r.branch := by
  intro stack index records d
  match index with
  | 0 => exact Or.inl (by cases stack <;> rfl)
  | i + 1 =>
    have hbase : computeExpectedBase stack (i + 1) records d =
        (match scanForBase records i with
          | some b => b
          | none => d) := by
      cases stack <;> rfl
    cases h : scanForBase records i with
    | none => exact Or.inl (by rw [hbase, h])
    | some b =>
      obtain ⟨j, hj, r, hrec, hb⟩ := scanForBase_sound records i b h
      exact Or.inr ⟨j, Nat.lt_succ_of_le hj, r, hrec, by rw [hbase, h, hb]⟩

/-- Counterexample to claim C3: undoing a restore at the concrete undo
point `op-undo-1` does not execute only the operation-restore command — the
issued call sequence also contains a fetch of all remotes. -/
theorem undoRestore_fetch_counterexample :
    undoRestoreEffects "op-undo-1" ≠ [Effect.opRestore "op-undo-1"] ∧
    Effect.gitFetchAllRemotes ∈ undoRestoreEffects "op-undo-1" := by
  constructor
  · decide
  · decide

/-- Claim C3 as amended: every undo executes the operation-restore command
with the recorded undo point followed by a fetch of all remotes — exactly
the same call sequence as a forward operation-mode restore; the engine has
no fetch asymmetry between the two. -/
theorem undoRestore_effects (undoOpId : String) :
    undoRestoreEffects undoOpId =
      [Effect.opRestore undoOpId, Effect.gitFetchAllRemotes] ∧
    undoRestoreEffects undoOpId = restoreEffects (.operation undoOpId) ∧
    restoreToOperationEffects undoOpId =
      [Effect.opRestore undoOpId, Effect.gitFetchAllRemotes] :=
  ⟨rfl, rfl, rfl⟩

/-- Claim C8: when reading the current operation id fails or the restore
command itself fails, `restoreWithUndo` reports failure, the stored undo
point is unchanged, and the navigation that triggered the restore is
cancelled. -/
theorem restoreWithUndo_failure (curOp : Except String String) (target : RestoreInstruction)
    (opRes fileRes : String → Except String Unit) (last : Option String)
    (h : exceptFailed curOp = true ∨
      exceptFailed (runRestoreStep target opRes fileRes) = true) :
    (restoreWithUndoState curOp target opRes fileRes last).1 = false ∧
    (restoreWithUndoState curOp target opRes fileRes last).2 = last ∧
    treeRestoreOutcome (restoreWithUndoState curOp target opRes fileRes last).1 =
      NavOutcome.cancel := by
  cases curOp with
  | error e => simp [restoreWithUndoState, treeRestoreOutcome]
  | ok v =>
    cases h with
    | inl h => simp [exceptFailed] at h
    | inr h =>
      cases hr : runRestoreStep target opRes fileRes with
      | error e => simp [restoreWithUndoState, hr, treeRestoreOutcome]
      | ok u => rw [hr] at h; simp [exceptFailed] at h

/-- Witness for C8: a failed read of the current operation id at concrete
inputs leaves the undo point `some "prev"` untouched and cancels. -/
theorem restoreWithUndo_failure_witness :
    (exceptFailed (Except.error "boom" : Except String String) = true ∨
      exceptFailed (runRestoreStep (.operation "o1")
        (fun _ => Except.ok ()) (fun _ => Except.ok ())) = true) ∧
    (restoreWithUndoState (Except.error "boom") (.operation "o1")
        (fun _ => Except.ok ()) (fun _ => Except.ok ()) (some "prev")).1 = false ∧
    (restoreWithUndoState (Except.error "boom") (.operation "o1")
        (fun _ => Except.ok ()) (fun _ => Except.ok ()) (some "prev")).2 = some "prev" ∧
    treeRestoreOutcome (restoreWithUndoState (Except.error "boom") (.operation "o1")
        (fun _ => Except.ok ()) (fun _ => Except.ok ()) (some "prev")).1 =
      NavOutcome.cancel :=
  ⟨Or.inl rfl,
    restoreWithUndo_failure (Except.error "boom") (.operation "o1")
      (fun _ => Except.ok ()) (fun _ => Except.ok ()) (some "prev") (Or.inl rfl)⟩

/-- Claim C6: in operation mode, a target that is itself a checkpointed
entry with a captured pre-turn operation id resolves to that pre-turn id;
a target found only through the ancestor walk resolves to the post-turn
id of the found checkpoint, falling back to its pre-turn id when the
post-turn id was never captured. -/
theorem resolveCheckpointOperationId_rolePreference
    (store : List Checkpoint) (resume : Option String) (path : List String)
    (targetId : String) :
    (∀ cp op, lookupCheckpoint store targetId = some cp → cp.operationId = some op →
      jsTruthy op = true →
      resolveCheckpointOperationId store resume path targetId = some op) ∧
    (∀ cp, lookupCheckpoint store targetId = none →
      walkOpFirst store path.reverse = some cp →
      (∀ p, cp.postOperationId = some p →
        resolveCheckpointOperationId store resume path targetId = some p) ∧
      (cp.postOperationId = none →
        resolveCheckpointOperationId store resume path targetId = cp.operationId)) := by
  constructor
  · intro cp op hcp hop htruthy
    simp [resolveCheckpointOperationId, hcp, hop, optTruthy, htruthy]
  · intro cp hnone hwalk
    constructor
    · intro p hpost
      simp [resolveCheckpointOperationId, hnone, optTruthy, hwalk, hpost, Option.orElse]
    · intro hpost
      simp [resolveCheckpointOperationId, hnone, optTruthy, hwalk, hpost, Option.orElse]

/-- Witness for C6: a two-entry store where the user entry `u1` resolves
directly to its pre-turn id, and the agent target `a9` (absent from the
store) resolves through the walk to the post-turn id of the nearest
checkpointed ancestor. -/
theorem resolveCheckpointOperationId_rolePreference_witness :
    (lookupCheckpoint
        [{ entryId := "u1", revision := "r1", timestamp := 1,
           operationId := some "op-pre", postOperationId := some "op-post" }] "u1" =
      some { entryId := "u1", revision := "r1", timestamp := 1,
             operationId := some "op-pre", postOperationId := some "op-post" }) ∧
    resolveCheckpointOperationId
        [{ entryId := "u1", revision := "r1", timestamp := 1,
           operationId := some "op-pre", postOperationId := some "op-post" }]
        none ["u1"] "u1" = some "op-pre" ∧
    resolveCheckpointOperationId
        [{ entryId := "u1", revision := "r1", timestamp := 1,
           operationId := some "op-pre", postOperationId := some "op-post" }]
        none ["u1", "a9"] "a9" = some "op-post" := by
  refine ⟨by decide, ?_, ?_⟩
  · exact (resolveCheckpointOperationId_rolePreference
      [{ entryId := "u1", revision := "r1", timestamp := 1,
         operationId := some "op-pre", postOperationId := some "op-post" }]
      none ["u1"] "u1").1
      { entryId := "u1", revision := "r1", timestamp := 1,
        operationId := some "op-pre", postOperationId := some "op-post" }
      "op-pre" (by decide) rfl (by decide)
  · exact ((resolveCheckpointOperationId_rolePreference
      [{ entryId := "u1", revision := "r1", timestamp := 1,
         operationId := some "op-pre", postOperationId := some "op-post" }]
      none ["u1", "a9"] "a9").2
      { entryId := "u1", revision := "r1", timestamp := 1,
        operationId := some "op-pre", postOperationId := some "op-post" }
      (by decide) (by decide)).1 "op-post" rfl

/-- Counterexample to claim C5: with an empty store, an empty ancestor
path and a resume-time operation id present, operation-mode resolution
falls back to the resume id but file-mode resolution yields none — the
resume fallback does not exist in both restore modes. -/
theorem resolveRestoreTarget_fileNoResume_counterexample :
    resolveRestoreTarget "file" [] (some "op-resume") [] "t1" = none ∧
    resolveRestoreTarget "operation" [] (some "op-resume") [] "t1" =
      some (RestoreInstruction.operation "op-resume") := by
  constructor
  · decide
  · decide

/-- Claim C5 as amended: operation-mode resolution follows the full
fallback chain — direct lookup, ancestor walk, resume-time operation id,
then none — while file-mode resolution stops after direct lookup and the
ancestor walk, resolving to none without consulting the resume
checkpoint. -/
theorem resolveRestoreTarget_fallbackChain (store : List Checkpoint)
    (resume : Option String) (path : List String) (targetId : String) :
    (∀ cp op, lookupCheckpoint store targetId = some cp → cp.operationId = some op →
      jsTruthy op = true →
      resolveRestoreTarget "operation" store resume path targetId =
        some (.operation op)) ∧
    (optTruthy ((lookupCheckpoint store targetId).bind Checkpoint.operationId) = false →
      walkOpFirst store path.reverse = none →
      resolveCheckpointOperationId store resume path targetId = resume) ∧
    (lookupCheckpoint store targetId = none →
      walkRevFirst store path.reverse = none →
      resolveRestoreTarget "file" store resume path targetId = none) ∧
    (∀ resume2, resolveRestoreTarget "file" store resume path targetId =
      resolveRestoreTarget "file" store resume2 path targetId) := by
  refine ⟨?_, ?_, ?_, fun resume2 => ?_⟩
  · intro cp op hcp hop htruthy
    simp [resolveRestoreTarget, resolveCheckpointOperationId, hcp, hop, optTruthy, htruthy]
  · intro hdirect hwalk
    simp [resolveCheckpointOperationId, hdirect, hwalk]
  · intro hnone hwalk
    simp [resolveRestoreTarget, resolveCheckpointRevision, hnone, optTruthy, hwalk]
  · simp [resolveRestoreTarget]

/-- Splitting a falsy (empty) string yields a single empty segment. -/
theorem jsSplit_of_falsy (sep : Char) (s : String) (h : jsTruthy s = false) :
    jsSplit sep s = [""] := by
  have hdata : s.data = [] := by
    cases hd : s.data with
    | nil => rfl
    | cons c cs => rw [jsTruthy, hd] at h; simp at h
  simp [jsSplit, hdata, chSplit]

/-- A field list parses to a stack node exactly when it has at least six
fields, the six fixed fields are truthy, and the node is not both flagged
empty and blank-described. -/
theorem parseFields_isSome_iff (parts : List String) :
    (parseFields parts).isSome ↔
      (6 ≤ parts.length ∧ (∀ g ∈ parts.take 6, jsTruthy g = true) ∧
        ¬(parts[5]? = some "1" ∧
          jsTruthy (jsTrim (jsJoin "\t" (parts.drop 6))) = false)) := by
  match parts with
  | [] => simp [parseFields]
  | [a] => simp [parseFields]
  | [a, b] => simp [parseFields]
  | [a, b, c] => simp [parseFields]
  | [a, b, c, d] => simp [parseFields]
  | [a, b, c, d, e] => simp [parseFields]
  | a :: b :: c :: d :: e :: f :: rest =>
    have htake : (a :: b :: c :: d :: e :: f :: rest).take 6 = [a, b, c, d, e, f] := rfl
    have hget : (a :: b :: c :: d :: e :: f :: rest)[5]? = some f := by simp
    have hlen : 6 ≤ (a :: b :: c :: d :: e :: f :: rest).length := by
      simp [List.length_cons]
    have hdrop : (a :: b :: c :: d :: e :: f :: rest).drop 6 = rest := rfl
    rw [htake, hget, hdrop]
    constructor
    · intro hsome
      simp only [parseFields] at hsome
      split at hsome
      · simp at hsome
      · rename_i h1
        split at hsome
        · simp at hsome
        · rename_i h2
          have hfs : jsTruthy a = true ∧ jsTruthy b = true ∧ jsTruthy c = true ∧
              jsTruthy d = true ∧ jsTruthy e = true ∧ jsTruthy f = true := by
            revert h1
            cases jsTruthy a <;> cases jsTruthy b <;> cases jsTruthy c <;>
              cases jsTruthy d <;> cases jsTruthy e <;> cases jsTruthy f <;> simp
          obtain ⟨ha, hb, hc, hd, he, hf⟩ := hfs
          refine ⟨hlen, ?_, ?_⟩
          · intro g hg
            simp only [List.mem_cons, List.not_mem_nil, or_false] at hg
            rcases hg with rfl | rfl | rfl | rfl | rfl | rfl <;> assumption
          · rintro ⟨hflag, hdesc⟩
            have hf1 : f = "1" := by simpa using hflag
            subst hf1
            revert h2
            simp [hdesc]
    · rintro ⟨_, hfields, hflag⟩
      have ha := hfields a (by simp [htake])
      have hb := hfields b (by simp [htake])
      have hc := hfields c (by simp [htake])
      have hd := hfields d (by simp [htake])
      have he := hfields e (by simp [htake])
      have hf := hfields f (by simp [htake])
      have hcond1 : (!jsTruthy a || !jsTruthy b || !jsTruthy c || !jsTruthy d
          || !jsTruthy e || !jsTruthy f) = false := by
        simp [ha, hb, hc, hd, he, hf]
      have hcond2 : ((f == "1") && !jsTruthy (jsTrim (jsJoin "\t" rest))) = false := by
        cases hq : (f == "1") with
        | false => simp
        | true =>
          have hf1 : f = "1" := by simpa using hq
          cases hd2 : jsTruthy (jsTrim (jsJoin "\t" rest)) with
          | true => simp [hd2]
          | false => exact absurd ⟨by rw [hf1], hd2⟩ hflag
      simp [parseFields, hcond1, hcond2]

/-- Claim C7: a log line resolves to a stack node iff it is well formed
(at least six tab-separated fields, fixed fields non-blank, and not both
flagged empty and blank-described); a node flagged empty is included
exactly when its description is non-blank; malformed lines are skipped
without failing the rest of the query. -/
theorem stackNodes_lineFiltering :
    (∀ line, (parseStackLine line).isSome ↔ lineWellFormed line) ∧
    (∀ pre post line, parseStackLine line = none →
      stackNodesOfLines (pre ++ line :: post) = stackNodesOfLines (pre ++ post)) ∧
    (∀ a b c d e rest,
      jsTruthy a = true → jsTruthy b = true → jsTruthy c = true →
      jsTruthy d = true → jsTruthy e = true →
      ((parseFields (a :: b :: c :: d :: e :: "1" :: rest)).isSome ↔
        jsTruthy (jsTrim (jsJoin "\t" rest)) = true)) := by
  refine ⟨fun line => ?_, fun pre post line hnone => ?_, ?_⟩
  · unfold parseStackLine lineWellFormed
    cases h : jsTruthy (jsTrimEnd line) with
    | true => simpa [h] using parseFields_isSome_iff (jsSplit '\t' (jsTrimEnd line))
    | false =>
      rw [jsSplit_of_falsy '\t' (jsTrimEnd line) h]
      simp [h]
  · simp [stackNodesOfLines, List.filterMap_append, hnone]
  · intro a b c d e rest ha hb hc hd he
    rw [parseFields_isSome_iff]
    have htake : (a :: b :: c :: d :: e :: "1" :: rest).take 6 = [a, b, c, d, e, "1"] := rfl
    have hget : (a :: b :: c :: d :: e :: "1" :: rest)[5]? = some "1" := by simp
    have hdrop : (a :: b :: c :: d :: e :: "1" :: rest).drop 6 = rest := rfl
    rw [htake, hget, hdrop]
    constructor
    · rintro ⟨_, _, hflag⟩
      cases hdesc : jsTruthy (jsTrim (jsJoin "\t" rest)) with
      | true => rfl
      | false => exact absurd ⟨rfl, hdesc⟩ hflag
    · intro hdesc
      refine ⟨by simp [List.length_cons], ?_, ?_⟩
      · intro g hg
        simp only [List.mem_cons, List.not_mem_nil, or_false] at hg
        rcases hg with rfl | rfl | rfl | rfl | rfl | rfl
        · exact ha
        · exact hb
        · exact hc
        · exact hd
        · exact he
        · decide
      · rintro ⟨_, hblank⟩
        rw [hdesc] at hblank
        simp at hblank

/-- Witness for C7: the malformed blank line is skipped between two good
lines, and a concrete empty-flagged node with a non-blank description is
included. -/
theorem stackNodes_lineFiltering_witness :
    (parseStackLine "" = none ∧
      stackNodesOfLines ["c1\tc\tr1\tr\t0\t0\tfeat x", "", "c2\td\tr2\ts\t0\t0\tfeat y"] =
        stackNodesOfLines ["c1\tc\tr1\tr\t0\t0\tfeat x", "c2\td\tr2\ts\t0\t0\tfeat y"]) ∧
    (parseFields ["c1", "c", "r1", "r", "0", "1", "described"]).isSome = true := by
  constructor
  · constructor
    · decide
    · exact stackNodes_lineFiltering.2.1 ["c1\tc\tr1\tr\t0\t0\tfeat x"]
        ["c2\td\tr2\ts\t0\t0\tfeat y"] "" (by decide)
  · exact (stackNodes_lineFiltering.2.2 "c1" "c" "r1" "r" "0" ["described"]
      (by decide) (by decide) (by decide) (by decide) (by decide)).mpr (by decide)

/-- The pruning comparison is transitive. -/
theorem tsLe_trans (x y z : Checkpoint) (h1 : tsLe x y) (h2 : tsLe y z) : tsLe x z := by
  simp only [tsLe, decide_eq_true_eq] at *
  omega

/-- The pruning comparison is total. -/
theorem tsLe_total (x y : Checkpoint) : tsLe x y || tsLe y x := by
  simp only [tsLe, Bool.or_eq_true, decide_eq_true_eq]
  omega

/-- A checkpoint in the removal prefix fails the retention predicate. -/
theorem retain_false_of_mem (toRemove : List Checkpoint) (r : Checkpoint)
    (hr : r ∈ toRemove) :
    (!toRemove.any (fun r2 => r2.entryId == r.entryId)) = false := by
  have h : toRemove.any (fun r2 => r2.entryId == r.entryId) = true :=
    List.any_eq_true.mpr ⟨r, hr, by simp⟩
  simp [h]

/-- After pruning, the store never holds more than the configured maximum
number of checkpoints. -/
theorem prune_length_le (maxCheckpoints : Nat) (cps : List Checkpoint) :
    (pruneCheckpoints maxCheckpoints cps).length ≤ maxCheckpoints := by
  unfold pruneCheckpoints
  split
  · assumption
  · rename_i hgt
    have hgt2 : maxCheckpoints < cps.length := Nat.lt_of_not_le hgt
    set ordered := cps.mergeSort tsLe with hord
    set k := ordered.length - maxCheckpoints with hk
    set toRemove := ordered.take k with htr
    set p : Checkpoint → Bool :=
      fun c => !toRemove.any (fun r => r.entryId == c.entryId) with hp
    have hperm : cps.Perm ordered := (List.mergeSort_perm cps tsLe).symm
    have hlen : ordered.length = cps.length := hperm.length_eq.symm
    have hnil : toRemove.filter p = [] := by
      rw [List.filter_eq_nil_iff]
      intro r hr
      simp only [hp, retain_false_of_mem toRemove r hr, Bool.false_eq_true,
        not_false_eq_true]
    calc (cps.filter p).length
        = (ordered.filter p).length := (hperm.filter p).length_eq
      _ = ((toRemove ++ ordered.drop k).filter p).length := by
          rw [List.take_append_drop]
      _ = (toRemove.filter p).length + ((ordered.drop k).filter p).length := by
          rw [List.filter_append, List.length_append]
      _ = ((ordered.drop k).filter p).length := by rw [hnil]; simp
      _ ≤ (ordered.drop k).length := List.length_filter_le p _
      _ ≤ maxCheckpoints := by
          rw [List.length_drop]
          omega

/-- With distinct entry ids (the store is a map), pruning keeps exactly
`min` of the store size and the maximum, and every evicted checkpoint is
no newer than every retained one. -/
theorem prune_exact (maxCheckpoints : Nat) (cps : List Checkpoint)
    (hnd : (cps.map Checkpoint.entryId).Nodup) :
    (pruneCheckpoints maxCheckpoints cps).length = min cps.length maxCheckpoints ∧
    ∀ c ∈ cps, c ∉ pruneCheckpoints maxCheckpoints cps →
      ∀ q ∈ pruneCheckpoints maxCheckpoints cps, c.timestamp ≤ q.timestamp := by
  unfold pruneCheckpoints
  split
  · rename_i hle
    refine ⟨(Nat.min_eq_left hle).symm, ?_⟩
    intro c hc hnc
    exact absurd hc hnc
  · rename_i hgt
    have hgt2 : maxCheckpoints < cps.length := Nat.lt_of_not_le hgt
    set ordered := cps.mergeSort tsLe with hord
    set k := ordered.length - maxCheckpoints with hk
    set toRemove := ordered.take k with htr
    set keep := ordered.drop k with hkp
    set p : Checkpoint → Bool :=
      fun c => !toRemove.any (fun r => r.entryId == c.entryId) with hp
    have hperm : cps.Perm ordered := (List.mergeSort_perm cps tsLe).symm
    have hlen : ordered.length = cps.length := hperm.length_eq.symm
    have hsplit : toRemove ++ keep = ordered := List.take_append_drop k ordered
    have hndO : (ordered.map Checkpoint.entryId).Nodup :=
      ((hperm.map Checkpoint.entryId).nodup_iff).mp hnd
    have hinj : ∀ x ∈ ordered, ∀ y ∈ ordered,
        x.entryId = y.entryId → x = y := by
      intro x hx y hy hxy
      exact List.inj_on_of_nodup_map hndO hx hy hxy
    have hmemO : ∀ c, c ∈ cps ↔ c ∈ ordered := fun c => hperm.mem_iff
    have hndOl : ordered.Nodup := hndO.of_map
    have hdisj : ∀ c, c ∈ toRemove → c ∈ keep → False := by
      intro c h1 h2
      have := hsplit ▸ hndOl
      exact (List.nodup_append.mp this).2.2 h1 h2
    have hpfalse : ∀ c ∈ ordered, p c = false ↔ c ∈ toRemove := by
      intro c hc
      constructor
      · intro hfalse
        simp only [hp, Bool.not_eq_false', List.any_eq_true] at hfalse
        obtain ⟨r, hr, hre⟩ := hfalse
        have hrO : r ∈ ordered := List.take_subset k ordered hr
        have : r = c := hinj r hrO c hc (by simpa using hre)
        exact this ▸ hr
      · intro hmem
        exact retain_false_of_mem toRemove c hmem
    have hkeepp : ∀ c ∈ keep, p c = true := by
      intro c hc
      have hcO : c ∈ ordered := List.drop_subset k ordered hc
      cases hpc : p c with
      | true => rfl
      | false =>
        exact absurd hc (fun h2 => hdisj c ((hpfalse c hcO).mp hpc) h2)
    have hfilter : ordered.filter p = keep := by
      rw [← hsplit, List.filter_append]
      have h1 : toRemove.filter p = [] := by
        rw [List.filter_eq_nil_iff]
        intro r hr
        simp [hp, retain_false_of_mem toRemove r hr]
      have h2 : keep.filter p = keep := List.filter_eq_self.mpr hkeepp
      rw [h1, h2, List.nil_append]
    have hpairwise : ordered.Pairwise (fun x y => tsLe x y = true) := by
      have := @List.sorted_mergeSort Checkpoint tsLe
        (fun x y z h1 h2 => tsLe_trans x y z h1 h2)
        (fun x y => tsLe_total x y) cps
      exact this
    have hcross : ∀ x ∈ toRemove, ∀ y ∈ keep, tsLe x y = true := by
      have := hsplit ▸ hpairwise
      exact fun x hx y hy => (List.pairwise_append.mp this).2.2 x hx y hy
    constructor
    · have : (cps.filter p).length = keep.length := by
        rw [(hperm.filter p).length_eq, hfilter]
      rw [this, hkp, List.length_drop]
      omega
    · intro c hc hnc q hq
      have hcO : c ∈ ordered := (hmemO c).mp hc
      have hpc : p c = false := by
        cases hpc : p c with
        | false => rfl
        | true => exact absurd (List.mem_filter.mpr ⟨hc, hpc⟩) hnc
      have hcR : c ∈ toRemove := (hpfalse c hcO).mp hpc
      have hqmem := List.mem_filter.mp hq
      have hqO : q ∈ ordered := (hmemO q).mp hqmem.1
      have hqK : q ∈ keep := by
        rcases (by rw [← hsplit] at hqO; exact List.mem_append.mp hqO) with hqa | hqb
        · have hpq : p q = true := by
            have h2 := hqmem.2
            rw [← hk, ← htr] at h2
            exact h2
          have hfq : p q = false := (hpfalse q hqO).mpr hqa
          rw [hpq] at hfq
          simp at hfq
        · exact hqb
      have := hcross c hcR q hqK
      simpa [tsLe] using this

/-- Pruning never invents checkpoints: the result is drawn from the
store. -/
theorem prune_subset (maxCheckpoints : Nat) (cps : List Checkpoint) :
    ∀ c ∈ pruneCheckpoints maxCheckpoints cps, c ∈ cps := by
  intro c hc
  unfold pruneCheckpoints at hc
  split at hc
  · exact hc
  · exact (List.mem_filter.mp hc).1

/-- Claim C4: after every checkpoint-store mutation (pruning itself, the
turn-end commit, or the rebuild from the durable log) the store holds at
most `maxCheckpoints` entries, and pruning a map-backed store (distinct
entry ids) retains exactly the `min(size, maxCheckpoints)` most recent
checkpoints by timestamp — every evicted entry is no newer than every
retained one. -/
theorem checkpointStore_pruneInvariant :
    (∀ maxCheckpoints cps, (pruneCheckpoints maxCheckpoints cps).length ≤ maxCheckpoints) ∧
    (∀ maxCheckpoints cps cp,
      (commitCheckpoint maxCheckpoints cps cp).length ≤ maxCheckpoints) ∧
    (∀ maxCheckpoints datas,
      (rebuildCheckpoints maxCheckpoints datas).length ≤ maxCheckpoints) ∧
    (∀ maxCheckpoints cps, ∀ c ∈ pruneCheckpoints maxCheckpoints cps, c ∈ cps) ∧
    (∀ maxCheckpoints cps, (cps.map Checkpoint.entryId).Nodup →
      (pruneCheckpoints maxCheckpoints cps).length = min cps.length maxCheckpoints ∧
      ∀ c ∈ cps, c ∉ pruneCheckpoints maxCheckpoints cps →
        ∀ q ∈ pruneCheckpoints maxCheckpoints cps, c.timestamp ≤ q.timestamp) :=
  ⟨prune_length_le,
    fun maxCheckpoints cps cp => prune_length_le maxCheckpoints (setCheckpoint cps cp),
    fun maxCheckpoints datas => prune_length_le maxCheckpoints (datas.foldl rebuildInsert []),
    prune_subset,
    prune_exact⟩

/-- Witness for C4: pruning a concrete three-entry store down to two keeps
exactly two checkpoints and evicts only older-or-equal ones. -/
theorem checkpointStore_pruneInvariant_witness :
    ((([{ entryId := "e1", revision := "r1", timestamp := 10 },
        { entryId := "e2", revision := "r2", timestamp := 5 },
        { entryId := "e3", revision := "r3", timestamp := 7 }] : List Checkpoint).map
          Checkpoint.entryId).Nodup) ∧
    (pruneCheckpoints 2
        [{ entryId := "e1", revision := "r1", timestamp := 10 },
         { entryId := "e2", revision := "r2", timestamp := 5 },
         { entryId := "e3", revision := "r3", timestamp := 7 }]).length = min 3 2 ∧
    ∀ c ∈ ([{ entryId := "e1", revision := "r1", timestamp := 10 },
            { entryId := "e2", revision := "r2", timestamp := 5 },
            { entryId := "e3", revision := "r3", timestamp := 7 }] : List Checkpoint),
      c ∉ pruneCheckpoints 2
        [{ entryId := "e1", revision := "r1", timestamp := 10 },
         { entryId := "e2", revision := "r2", timestamp := 5 },
         { entryId := "e3", revision := "r3", timestamp := 7 }] →
      ∀ q ∈ pruneCheckpoints 2
        [{ entryId := "e1", revision := "r1", timestamp := 10 },
         { entryId := "e2", revision := "r2", timestamp := 5 },
         { entryId := "e3", revision := "r3", timestamp := 7 }],
        c.timestamp ≤ q.timestamp :=
  ⟨by decide,
    checkpointStore_pruneInvariant.2.2.2.2 2
      [{ entryId := "e1", revision := "r1", timestamp := 10 },
       { entryId := "e2", revision := "r2", timestamp := 5 },
       { entryId := "e3", revision := "r3", timestamp := 7 }] (by decide)⟩

/-- With retargeting off, the retarget condition never fires. -/
theorem refreshRetargetAttempt_off (defaultBase : String) (stack : List StackNode)
    (i : Nat) (records : List PrRecord) (pr : Option GhPr) :
    refreshRetargetAttempt false defaultBase stack i records pr = none := by
  cases pr <;> simp [refreshRetargetAttempt]

/-- Every facade call of the sync loop is a PR query or a PR base edit. -/
theorem refreshNodes_effects_shape (retargetBases : Bool) (defaultBase : String)
    (stack : List StackNode) (prq : String → Option GhPr) (retargetOk : Nat → Bool) :
    ∀ (rest : List StackNode) (i : Nat) (records : List PrRecord),
      ∀ e ∈ (refreshNodes retargetBases defaultBase stack prq retargetOk i rest records).2.2,
        (isPrListQuery e || isPrEdit e) = true := by
  intro rest
  induction rest with
  | nil => intro i records e he; simp [refreshNodes] at he
  | cons node rest ih =>
    intro i records e he
    simp only [refreshNodes] at he
    cases hra : refreshRetargetAttempt retargetBases defaultBase stack i records
        (getExistingPr prq (branchForChange node)) with
    | none =>
      rw [hra] at he
      simp only [List.cons_append, List.nil_append, List.mem_cons, List.mem_append] at he
      rcases he with rfl | he
      · simp [isPrListQuery]
      · exact ih (i + 1) _ e he
    | some nb =>
      rw [hra] at he
      simp at he
      rcases he with rfl | rfl | he
      · simp [isPrListQuery]
      · simp [isPrEdit]
      · exact ih (i + 1) _ e he

/-- With retargeting off, every facade call of the sync loop is a PR
query. -/
theorem refreshNodes_noRetarget_queries (defaultBase : String) (stack : List StackNode)
    (prq : String → Option GhPr) (retargetOk : Nat → Bool) :
    ∀ (rest : List StackNode) (i : Nat) (records : List PrRecord),
      ∀ e ∈ (refreshNodes false defaultBase stack prq retargetOk i rest records).2.2,
        isPrListQuery e = true := by
  intro rest
  induction rest with
  | nil => intro i records e he; simp [refreshNodes] at he
  | cons node rest ih =>
    intro i records e he
    simp only [refreshNodes, refreshRetargetAttempt_off] at he
    simp only [List.cons_append, List.nil_append, List.mem_cons, List.mem_append] at he
    rcases he with rfl | he
    · simp [isPrListQuery]
    · exact ih (i + 1) _ e he

/-- Every facade call of one sync run is a PR query, a PR base edit, or
the persisted snapshot with action `sync`. -/
theorem refreshRun_effects_shape (remote : String) (stack : List StackNode)
    (retargetBases persist : Bool) (defaultBase : String)
    (prq : String → Option GhPr) (retargetOk : Nat → Bool) :
    ∀ e ∈ (refreshPrSnapshotRun remote stack retargetBases persist defaultBase prq
        retargetOk).effects,
      (isPrListQuery e || isPrEdit e) = true ∨ appendedAction e = some "sync" := by
  intro e he
  simp only [refreshPrSnapshotRun, List.mem_append] at he
  rcases he with he | he
  · exact Or.inl (refreshNodes_effects_shape retargetBases defaultBase stack prq
      retargetOk stack 0 [] e he)
  · cases persist with
    | false => exact absurd he (by simp)
    | true =>
      rw [if_pos rfl, List.mem_singleton] at he
      subst he
      exact Or.inr rfl

/-- With retargeting off, every facade call of one sync run is a PR query
or the persisted snapshot with action `sync`. -/
theorem refreshRun_noRetarget_shape (remote : String) (stack : List StackNode)
    (persist : Bool) (defaultBase : String)
    (prq : String → Option GhPr) (retargetOk : Nat → Bool) :
    ∀ e ∈ (refreshPrSnapshotRun remote stack false persist defaultBase prq
        retargetOk).effects,
      isPrListQuery e = true ∨ appendedAction e = some "sync" := by
  intro e he
  simp only [refreshPrSnapshotRun, List.mem_append] at he
  rcases he with he | he
  · exact Or.inl (refreshNodes_noRetarget_queries defaultBase stack prq
      retargetOk stack 0 [] e he)
  · cases persist with
    | false => exact absurd he (by simp)
    | true =>
      rw [if_pos rfl, List.mem_singleton] at he
      subst he
      exact Or.inr rfl

/-- Every facade call of the dry-run publish loop is a PR query. -/
theorem publishNodes_dry_queries (draft : Bool) (defaultBase remote : String)
    (stack : List StackNode) (prq : String → Option GhPr)
    (urlFromCreateOut : String → Option String) :
    ∀ (rest : List StackNode) (i : Nat) (records : List PrRecord),
      ∀ e ∈ (publishNodes true draft defaultBase remote stack prq urlFromCreateOut
          i rest records).2,
        isPrListQuery e = true := by
  intro rest
  induction rest with
  | nil => intro i records e he; simp [publishNodes] at he
  | cons node rest ih =>
    intro i records e he
    simp only [publishNodes, if_true, List.mem_cons] at he
    rcases he with rfl | he
    · simp [isPrListQuery]
    · exact ih (i + 1) _ e he

/-- A PR query is none of the mutating or persisting facade calls. -/
theorem prListQuery_frame (e : Effect) (h : isPrListQuery e = true) :
    isBookmarkSet e = false ∧ isGitPush e = false ∧ isPrCreate e = false ∧
    isPrEdit e = false ∧ appendedAction e ≠ some "publish" ∧
    isAppendPrState e = false := by
  cases e <;> simp_all [isPrListQuery, isBookmarkSet, isGitPush, isPrCreate, isPrEdit,
    appendedAction, isAppendPrState]

/-- A persisted snapshot with action `sync` is none of the mutating facade
calls and is not a publish snapshot. -/
theorem appendSync_frame (e : Effect) (h : appendedAction e = some "sync") :
    isBookmarkSet e = false ∧ isGitPush e = false ∧ isPrCreate e = false ∧
    isPrEdit e = false ∧ appendedAction e ≠ some "publish" := by
  cases e <;> simp_all [isBookmarkSet, isGitPush, isPrCreate, isPrEdit, appendedAction]

/-- Sync-run facade calls are never bookmark deletions, deletion pushes or
bookmark pushes. -/
theorem refreshEffect_not_close (e : Effect)
    (h : (isPrListQuery e || isPrEdit e) = true ∨ appendedAction e = some "sync") :
    isBookmarkDelete e = false ∧ isPushDeleted e = false ∧ isGitPush e = false := by
  cases e <;> simp_all [isPrListQuery, isPrEdit, appendedAction, isBookmarkDelete,
    isPushDeleted, isGitPush]

/-- Counterexample to claim C2: a dry-run publish of the one-node stack
with `autoSyncOnPublish` enabled persists a PR-state snapshot (the
preliminary sync pass appends one with action `sync`). -/
theorem publish_dryRun_persist_counterexample :
    (publishRun [nodeA] true false true "main" "origin" scenarioPrq (fun _ => true)
      (fun _ => none)).effects.any isAppendPrState = true := by
  decide

/-- Claim C2 as amended: a dry-run publish issues no bookmark-set, push,
PR-create or PR-edit call and persists no snapshot with action `publish`;
with `autoSyncOnPublish` disabled it persists nothing at all, while with it
enabled the only persisted entry is the preliminary sync-pass snapshot
(action `sync`). -/
theorem publish_dryRun_frame (stack : List StackNode) (draft autoSync : Bool)
    (defaultBase remote : String) (prq : String → Option GhPr) (retargetOk : Nat → Bool)
    (urlFromCreateOut : String → Option String) :
    ∀ e ∈ (publishRun stack true draft autoSync defaultBase remote prq retargetOk
        urlFromCreateOut).effects,
      isBookmarkSet e = false ∧ isGitPush e = false ∧ isPrCreate e = false ∧
      isPrEdit e = false ∧ appendedAction e ≠ some "publish" ∧
      (autoSync = false → isAppendPrState e = false) := by
  have heq : (publishRun stack true draft autoSync defaultBase remote prq retargetOk
      urlFromCreateOut).effects =
      (if autoSync then (refreshPrSnapshotRun remote stack false true defaultBase prq
        retargetOk).effects else []) ++
      (publishNodes true draft defaultBase remote stack prq urlFromCreateOut 0 stack []).2 := by
    simp [publishRun]
  intro e he
  rw [heq] at he
  rcases List.mem_append.mp he with he | he
  · cases autoSync with
    | false => exact absurd he (by simp)
    | true =>
      rw [if_pos rfl] at he
      rcases refreshRun_noRetarget_shape remote stack true defaultBase prq retargetOk
        e he with hq | hs
      · obtain ⟨h1, h2, h3, h4, h5, h6⟩ := prListQuery_frame e hq
        exact ⟨h1, h2, h3, h4, h5, fun hcontra => by simp at hcontra⟩
      · obtain ⟨h1, h2, h3, h4, h5⟩ := appendSync_frame e hs
        exact ⟨h1, h2, h3, h4, h5, fun hcontra => by simp at hcontra⟩
  · have hq := publishNodes_dry_queries draft defaultBase remote stack prq
      urlFromCreateOut stack 0 [] e he
    obtain ⟨h1, h2, h3, h4, h5, h6⟩ := prListQuery_frame e hq
    exact ⟨h1, h2, h3, h4, h5, fun _ => h6⟩

/-- Witness for C2 (amended): the first facade call of a concrete dry-run
publish is a PR query and satisfies the frame conditions. -/
theorem publish_dryRun_frame_witness :
    (Effect.prListQuery "push-A" ∈ (publishRun [nodeA] true false false "main" "origin"
      scenarioPrq (fun _ => true) (fun _ => none)).effects) ∧
    isBookmarkSet (Effect.prListQuery "push-A") = false ∧
    isGitPush (Effect.prListQuery "push-A") = false ∧
    isPrCreate (Effect.prListQuery "push-A") = false ∧
    isPrEdit (Effect.prListQuery "push-A") = false ∧
    appendedAction (Effect.prListQuery "push-A") ≠ some "publish" ∧
    (false = false → isAppendPrState (Effect.prListQuery "push-A") = false) :=
  ⟨by decide,
    publish_dryRun_frame [nodeA] false false "main" "origin" scenarioPrq (fun _ => true)
      (fun _ => none) (Effect.prListQuery "push-A") (by decide)⟩

/-- Claim C9: when the refreshed records contain an open PR and `--force`
is not set, stack close reports the blocking open records and issues no
bookmark deletion, no deletion push and no bookmark push. -/
theorem stackClose_blockedOpen_frame (stack : List StackNode) (opts : StackCloseOptions)
    (remote defaultBase : String) (prq : String → Option GhPr) (retargetOk : Nat → Bool)
    (delRes : String → ExecRes) (pushRes newPreferredRes newFallbackRes : ExecRes)
    (confirmed : Bool)
    (hforce : opts.force = false)
    (hopen : (refreshPrSnapshotRun remote stack false true defaultBase prq
        retargetOk).records.filter
        (fun r => jsToUpper (r.state.getD "") == "OPEN") ≠ []) :
    (stackCloseRun stack opts remote defaultBase prq retargetOk delRes pushRes
        newPreferredRes newFallbackRes confirmed).2 =
      CloseOutcome.blockedOpen
        ((refreshPrSnapshotRun remote stack false true defaultBase prq
          retargetOk).records.filter
          (fun r => jsToUpper (r.state.getD "") == "OPEN")) ∧
    ∀ e ∈ (stackCloseRun stack opts remote defaultBase prq retargetOk delRes pushRes
        newPreferredRes newFallbackRes confirmed).1,
      isBookmarkDelete e = false ∧ isPushDeleted e = false ∧ isGitPush e = false := by
  have hlen : ((refreshPrSnapshotRun remote stack false true defaultBase prq
      retargetOk).records.filter
      (fun r => jsToUpper (r.state.getD "") == "OPEN")).length > 0 :=
    List.length_pos.mpr hopen
  have hguard : (((refreshPrSnapshotRun remote stack false true defaultBase prq
      retargetOk).records.filter
      (fun r => jsToUpper (r.state.getD "") == "OPEN")).length > 0 && !opts.force) = true := by
    simp [hforce, hlen]
  constructor
  · simp only [stackCloseRun, hguard, if_true]
  · intro e he
    simp only [stackCloseRun, hguard, if_true] at he
    exact refreshEffect_not_close e
      (refreshRun_effects_shape remote stack false true defaultBase prq retargetOk e he)

/-- Witness for C9: closing the one-node stack whose PR is open, without
force, blocks and performs no deletion or push. -/
theorem stackClose_blockedOpen_frame_witness :
    (({ remote := "", dryRun := false, keepBookmarks := false, noNewChange := false,
        force := false } : StackCloseOptions).force = false) ∧
    ((refreshPrSnapshotRun "origin" [nodeB] false true "main" scenarioPrq
        (fun _ => true)).records.filter
        (fun r => jsToUpper (r.state.getD "") == "OPEN") ≠ []) ∧
    (stackCloseRun [nodeB]
        { remote := "", dryRun := false, keepBookmarks := false, noNewChange := false,
          force := false }
        "origin" "main" scenarioPrq (fun _ => true) (fun _ => ⟨0, ""⟩) ⟨0, ""⟩ ⟨0, ""⟩ ⟨0, ""⟩
        true).2 =
      CloseOutcome.blockedOpen
        ((refreshPrSnapshotRun "origin" [nodeB] false true "main" scenarioPrq
          (fun _ => true)).records.filter
          (fun r => jsToUpper (r.state.getD "") == "OPEN")) :=
  ⟨rfl, by decide,
    (stackClose_blockedOpen_frame [nodeB]
      { remote := "", dryRun := false, keepBookmarks := false, noNewChange := false,
        force := false }
      "origin" "main" scenarioPrq (fun _ => true) (fun _ => ⟨0, ""⟩) ⟨0, ""⟩ ⟨0, ""⟩ ⟨0, ""⟩
      true rfl (by decide)).1⟩

/-- Witness for C5: the amended chain at a concrete store — the operation
mode resolves the checkpointed entry to its pre-turn id. -/
theorem resolveRestoreTarget_fallbackChain_witness :
    (lookupCheckpoint
        [{ entryId := "u2", revision := "r9", timestamp := 5,
           operationId := some "op-x" }] "u2" =
      some { entryId := "u2", revision := "r9", timestamp := 5,
             operationId := some "op-x" }) ∧
    resolveRestoreTarget "operation"
        [{ entryId := "u2", revision := "r9", timestamp := 5,
           operationId := some "op-x" }] none [] "u2" =
      some (RestoreInstruction.operation "op-x") :=
  ⟨by decide,
    (resolveRestoreTarget_fallbackChain
      [{ entryId := "u2", revision := "r9", timestamp := 5,
         operationId := some "op-x" }] none [] "u2").1
      { entryId := "u2", revision := "r9", timestamp := 5,
        operationId := some "op-x" }
      "op-x" (by decide) rfl (by decide)⟩

end PiJj
